import Mathlib

/-!
Verification development for the FUSE adapter in fs/expose/fuse
(operations.py and utils.py).  The adapter's pure logic is embedded
shallowly: machine integers are Nat, the backend filesystem is a finite
path-to-entry map, byte streams are explicit records, and every fallible
operation returns an explicit result value.  Backend (pyfilesystem2)
operations that the adapter calls but whose code is not part of this
repository are modelled from the spec at the backend interface; each such
definition says so in its doc comment.
-/

set_option maxHeartbeats 1000000

/-! ## Errno and flag constants (linux values, plus the constants fixed at
    the top of utils.py: `errno.ENOTSUP = 95`, `posix.O_ACCMODE = 3`,
    `posix.ST_WRITE = 128`). -/

def EPERM : Nat := 1
def ENOENT : Nat := 2
def EBADF : Nat := 9
def EACCES : Nat := 13
def EEXIST : Nat := 17
def ENOTDIR : Nat := 20
def EISDIR : Nat := 21
def EINVAL : Nat := 22
def ENOSPC : Nat := 28
def EROFS : Nat := 30
def ENOTEMPTY : Nat := 39
def ENONET : Nat := 64
def ENOTSUP : Nat := 95
def ETIMEDOUT : Nat := 110

def O_RDONLY : Nat := 0
def O_WRONLY : Nat := 1
def O_RDWR : Nat := 2
def O_ACCMODE : Nat := 3
def O_EXCL : Nat := 128
def O_TRUNC : Nat := 512
def O_APPEND : Nat := 1024
def ST_WRITE : Nat := 128

def S_IFDIR : Nat := 0o040000
def S_IFREG : Nat := 0o100000

/-! ## Error taxonomy and the translation table of utils.py -/

/-- Exception classes that `_ConvertFSErrors.__exit__` catches: every
`fs.errors` class that appears (mapped or commented out) in `FILE_ERRORS`,
the base class `FSError` itself, and `KeyError` (descriptor lookup). -/
inductive ExcKind where
  | KeyError
  | CreateFailed
  | FilesystemClosed
  | OperationFailed
  | InsufficientStorage
  | OperationTimeout
  | PermissionDenied
  | RemoteConnectionError
  | RemoveRootError
  | Unsupported
  | PathError
  | InvalidPath
  | InvalidCharsInPath
  | NoSysPath
  | NoURL
  | ResourceError
  | DestinationExists
  | DirectoryExists
  | DirectoryNotEmpty
  | FileExists
  | ResourceInvalid
  | DirectoryExpected
  | FileExpected
  | ResourceLocked
  | ResourceNotFound
  | ResourceReadOnly
  | IllegalBackReference
  | FSError
deriving DecidableEq

/-- The `FILE_ERRORS` dictionary of `_ConvertFSErrors`, looked up with
`dict.get`: classes without an entry yield `none` (Python `None`). -/
def fileErrors : ExcKind → Option Nat
  | ExcKind.KeyError => some EBADF
  | ExcKind.InsufficientStorage => some ENOSPC
  | ExcKind.OperationTimeout => some ETIMEDOUT
  | ExcKind.PermissionDenied => some EACCES
  | ExcKind.RemoteConnectionError => some ENONET
  | ExcKind.RemoveRootError => some EPERM
  | ExcKind.Unsupported => some ENOTSUP
  | ExcKind.InvalidPath => some EINVAL
  | ExcKind.InvalidCharsInPath => some EINVAL
  | ExcKind.DestinationExists => some EEXIST
  | ExcKind.DirectoryExists => some EEXIST
  | ExcKind.DirectoryNotEmpty => some ENOTEMPTY
  | ExcKind.FileExists => some EEXIST
  | ExcKind.DirectoryExpected => some ENOTDIR
  | ExcKind.FileExpected => some EISDIR
  | ExcKind.ResourceNotFound => some ENOENT
  | ExcKind.ResourceReadOnly => some EROFS
  | ExcKind.IllegalBackReference => some EINVAL
  | _ => none

/-- An exception arriving at the `_ConvertFSErrors.__exit__` boundary:
either an `FSError`/`KeyError` instance (by class), a `FuseOSError`
carrying an errno, or any other exception. -/
inductive RaisedExc where
  | fsExc (k : ExcKind)
  | fuseError (code : Nat)
  | other
deriving DecidableEq

/-- Result of the `__exit__` boundary: raise `FuseOSError(code)` where the
code is the possibly-missing (`none`) dictionary lookup, or re-raise the
original exception unchanged. -/
inductive ExitResult where
  | raiseFuse (code : Option Nat)
  | reraise (e : RaisedExc)
deriving DecidableEq

/-- Shallow embedding of `_ConvertFSErrors.__exit__`: an `FSError` or
`KeyError` instance is replaced by `FuseOSError(FILE_ERRORS.get(type))`;
anything else (including `FuseOSError` itself) is re-raised unchanged. -/
def convertExit : RaisedExc → ExitResult
  | RaisedExc.fsExc k => ExitResult.raiseFuse (fileErrors k)
  | e => ExitResult.reraise e

/-! ## Open modes and the decision table of `open` -/

/-- Backend stream open modes: `r`, `w`, `a`, `r+` (`rp`), `w+` (`wp`). -/
inductive OpenMode where
  | r
  | w
  | a
  | rp
  | wp
deriving DecidableEq

/-- The mode-derivation logic at the top of `open` in operations.py.
`none` models the Python `UnboundLocalError` when no access-mode branch
matches (`flags & O_ACCMODE == 3`). -/
def computeMode (flags : Nat) : Option OpenMode :=
  if flags &&& O_ACCMODE = O_WRONLY then
    some (if flags &&& O_APPEND ≠ 0 then OpenMode.a else OpenMode.w)
  else if flags &&& O_ACCMODE = O_RDWR then
    some (if flags &&& O_TRUNC ≠ 0 then OpenMode.wp else OpenMode.rp)
  else if flags &&& O_ACCMODE = O_RDONLY then
    some (if flags &&& (ST_WRITE ||| O_TRUNC) ≠ 0 then OpenMode.rp else OpenMode.r)
  else
    none

/-! ## The backend filesystem, modelled from the spec at its interface -/

/-- A normalized path: the list of components below the root. The root is
`[]`. -/
abbrev FPath := List String

/-- A backend resource: a directory or a regular file with byte content. -/
inductive Entry where
  | dir
  | file (content : List Nat)
deriving DecidableEq

/-- Modelled from the spec: the backend virtual filesystem, a finite map
from paths to resources ("path-addressed resources").  The root directory
always exists implicitly. -/
structure FS where
  entries : List (FPath × Entry)
deriving DecidableEq

/-- First-match association-list lookup (Python dict / map lookup). -/
def alookup {α β : Type} [DecidableEq α] : List (α × β) → α → Option β
  | [], _ => none
  | pe :: t, k => if pe.1 = k then some pe.2 else alookup t k

/-- Type of the resource at a path; the root is always a directory. -/
def FS.typeOf (fs : FS) (p : FPath) : Option Entry :=
  if p = [] then some Entry.dir else alookup fs.entries p

/-- Modelled from the spec: backend `exists`. -/
def FS.exists_ (fs : FS) (p : FPath) : Bool :=
  (fs.typeOf p).isSome

/-- Modelled from the spec: backend `isdir`. -/
def FS.isdir (fs : FS) (p : FPath) : Bool :=
  decide (fs.typeOf p = some Entry.dir)

/-- Modelled from the spec: backend `gettype`, failing `ResourceNotFound`
for a missing resource. -/
def FS.gettype (fs : FS) (p : FPath) : Except ExcKind Entry :=
  match fs.typeOf p with
  | none => Except.error ExcKind.ResourceNotFound
  | some e => Except.ok e

/-- Whether some entry lies strictly below `p`. -/
def FS.hasChildren (fs : FS) (p : FPath) : Bool :=
  fs.entries.any (fun pe => decide (pe.1.take p.length = p ∧ pe.1 ≠ p))

/-- Modelled from the spec: backend `isempty` — `ResourceNotFound` for a
missing path, `DirectoryExpected` for a regular resource, otherwise
whether the directory has no children. -/
def FS.isempty (fs : FS) (p : FPath) : Except ExcKind Bool :=
  match fs.typeOf p with
  | none => Except.error ExcKind.ResourceNotFound
  | some (Entry.file _) => Except.error ExcKind.DirectoryExpected
  | some Entry.dir => Except.ok (!fs.hasChildren p)

/-- Raw insertion of a directory entry. -/
def FS.mkdirRaw (fs : FS) (p : FPath) : FS :=
  ⟨(p, Entry.dir) :: fs.entries⟩

/-- Modelled from the spec: backend `makedir` — fails `DirectoryExists` if
the path is already taken and `ResourceNotFound` if the parent is not a
directory. -/
def FS.makedir (fs : FS) (p : FPath) : Except ExcKind FS :=
  if fs.exists_ p = true then Except.error ExcKind.DirectoryExists
  else if fs.isdir p.dropLast = false then Except.error ExcKind.ResourceNotFound
  else Except.ok (fs.mkdirRaw p)

/-- Modelled from the spec: backend `create` — "creates the resource
(idempotent if pre-existing)": returns `false` and leaves the store alone
when the path already exists, fails `ResourceNotFound` when the parent is
not a directory, otherwise adds an empty file and returns `true`. -/
def FS.create (fs : FS) (p : FPath) : Except ExcKind (Bool × FS) :=
  if fs.exists_ p = true then Except.ok (false, fs)
  else if fs.isdir p.dropLast = false then Except.error ExcKind.ResourceNotFound
  else Except.ok (true, ⟨(p, Entry.file []) :: fs.entries⟩)

/-- Modelled from the spec: backend `movedir` — "move the directory tree":
every entry at or below `o` is rebased under `n`; the pre-existing (empty)
directory entry at `n` is dropped in favour of the moved tree. -/
def FS.movedir (fs : FS) (o n : FPath) : FS :=
  ⟨fs.entries.filterMap (fun pe =>
    if pe.1 = n then none
    else if pe.1.take o.length = o then some (n ++ pe.1.drop o.length, pe.2)
    else some pe)⟩

/-- Modelled from the spec: backend `move` — "move/overwrite the
resource": the entry at `o` is rebound to `n`, replacing any previous
entry at `n`. -/
def FS.move (fs : FS) (o n : FPath) : FS :=
  match alookup fs.entries o with
  | none => fs
  | some e => ⟨(n, e) :: fs.entries.filter (fun pe => decide (pe.1 ≠ o ∧ pe.1 ≠ n))⟩

/-- Well-formed store: no entry at the root key, and every proper prefix
of an entry's path is a directory. -/
def FS.WF (fs : FS) : Prop :=
  ∀ pe ∈ fs.entries, pe.1 ≠ [] ∧ ∀ i, i < pe.1.length → fs.typeOf (pe.1.take i) = some Entry.dir

instance (fs : FS) : Decidable (FS.WF fs) := by
  unfold FS.WF; infer_instance

/-! ## FPath normalization and guards (fs.path helpers, modelled from the
    spec) -/

/-- One step of path normalization over raw components. -/
def normStep (acc : FPath) (c : String) : Except ExcKind FPath :=
  if c = "" ∨ c = "." then Except.ok acc
  else if c = ".." then
    (if acc = [] then Except.error ExcKind.IllegalBackReference else Except.ok acc.dropLast)
  else Except.ok (acc ++ [c])

/-- Modelled from the spec: `validatepath`/`normpath` — "Normalize both
paths": empty and `.` components vanish, `..` pops a component and fails
`IllegalBackReference` above the root.  The result `[]` is the filesystem
root. -/
def normpath (comps : List String) : Except ExcKind FPath :=
  comps.foldlM normStep []

/-- Modelled from the spec: `isparent` — whether `n` lies "inside the
subtree rooted at" `o` (equal paths included). -/
def isparent (o n : FPath) : Bool :=
  decide (n.take o.length = o)

/-- The ancestor walk of rename/rmdir/unlink: every proper prefix of `p`
(`recursepath(p)[:-1]`, the root included) must be a directory. -/
def ancestorsAreDirs (fs : FS) (p : FPath) : Bool :=
  (List.range p.length).all (fun i => fs.isdir (p.take i))

/-! ## Adapter result type and the rename operation -/

/-- Outcome of one adapter operation as seen by the host: success, a
`FuseOSError` carrying a (possibly undefined, `none`) errno, or an
untranslated exception that escapes the boundary. -/
inductive Res (α : Type) where
  | ok (a : α)
  | err (code : Option Nat)
  | fatal
deriving DecidableEq

/-- The body of `rename` in operations.py after both paths normalized
successfully (`o`, `n` are the normalized paths; backend calls receive
the raw paths in the Python code, but normalize them internally to the
same values). -/
def renameCore (fs : FS) (o n : FPath) : Res Unit × FS :=
  if o = [] ∨ n = [] then (Res.err (some ENOENT), fs)
  else if isparent o n = true then (Res.err (some EINVAL), fs)
  else if ancestorsAreDirs fs o = false then (Res.err (some ENOTDIR), fs)
  else
    match fs.gettype o with
    | Except.error k => (Res.err (fileErrors k), fs)
    | Except.ok Entry.dir =>
      match (if fs.exists_ n = true then Except.ok fs else fs.makedir n) with
      | Except.error k => (Res.err (fileErrors k), fs)
      | Except.ok fs1 =>
        match fs1.isempty n with
        | Except.error k => (Res.err (fileErrors k), fs1)
        | Except.ok false => (Res.err (some ENOTEMPTY), fs1)
        | Except.ok true => (Res.ok (), fs1.movedir o n)
    | Except.ok (Entry.file _) =>
      if fs.isdir n = true then (Res.err (some EISDIR), fs)
      else (Res.ok (), fs.move o n)

/-- Shallow embedding of `rename` in operations.py, its
`convert_fs_errors` boundary included. -/
def renameOp (fs : FS) (old new : List String) : Res Unit × FS :=
  match normpath old with
  | Except.error k => (Res.err (fileErrors k), fs)
  | Except.ok o =>
    match normpath new with
    | Except.error k => (Res.err (fileErrors k), fs)
    | Except.ok n => renameCore fs o n

/-- All four guard checks of `rename` pass. -/
def renameGuardsOk (fs : FS) (o n : FPath) : Prop :=
  o ≠ [] ∧ n ≠ [] ∧ isparent o n = false ∧ ancestorsAreDirs fs o = true

instance (fs : FS) (o n : FPath) : Decidable (renameGuardsOk fs o n) := by
  unfold renameGuardsOk
  infer_instance

/-! ## Streams and the descriptor table -/

/-- A backend byte stream: readability/writability, current position and
content.  Modelled from the spec at the `openbin` interface. -/
structure BStream where
  readable : Bool
  writable : Bool
  pos : Nat
  content : List Nat
deriving DecidableEq

/-- Python `fh.seek(offset, Seek.set)`. -/
def BStream.seek (s : BStream) (off : Nat) : BStream :=
  ⟨s.readable, s.writable, off, s.content⟩

/-- Python `fh.write(data)` at the current position, returning the number
of bytes written; the content is zero-padded if the position lies past
the end. -/
def BStream.write (s : BStream) (data : List Nat) : BStream × Nat :=
  let padded := s.content ++ List.replicate (s.pos - s.content.length) 0
  (⟨s.readable, s.writable, s.pos + data.length,
    padded.take s.pos ++ data ++ padded.drop (s.pos + data.length)⟩,
   data.length)

/-- Python `fh.truncate(len)`: the content length becomes exactly `len`
(zero-padded if grown); the position is unchanged. -/
def BStream.truncate (s : BStream) (len : Nat) : BStream :=
  ⟨s.readable, s.writable, s.pos, s.content.take len ++ List.replicate (len - s.content.length) 0⟩

/-- Modelled from the spec: backend `openbin` — a stream on the resource
in the given mode.  Write modes truncate (`w`, `w+`) or position at the
end (`a`); `r`/`r+` require the resource to exist; write modes on a
missing file require the parent directory and start empty.  Write-back of
stream contents into the store is outside the claims checked here. -/
def FS.openbin (fs : FS) (p : FPath) (m : OpenMode) : Except ExcKind BStream :=
  match fs.typeOf p with
  | some Entry.dir => Except.error ExcKind.FileExpected
  | some (Entry.file c) =>
    Except.ok (match m with
      | OpenMode.r => ⟨true, false, 0, c⟩
      | OpenMode.rp => ⟨true, true, 0, c⟩
      | OpenMode.w => ⟨false, true, 0, []⟩
      | OpenMode.wp => ⟨true, true, 0, []⟩
      | OpenMode.a => ⟨false, true, c.length, c⟩)
  | none =>
    match m with
    | OpenMode.r => Except.error ExcKind.ResourceNotFound
    | OpenMode.rp => Except.error ExcKind.ResourceNotFound
    | OpenMode.w =>
      if fs.isdir p.dropLast = true then Except.ok ⟨false, true, 0, []⟩
      else Except.error ExcKind.ResourceNotFound
    | OpenMode.wp =>
      if fs.isdir p.dropLast = true then Except.ok ⟨true, true, 0, []⟩
      else Except.error ExcKind.ResourceNotFound
    | OpenMode.a =>
      if fs.isdir p.dropLast = true then Except.ok ⟨false, true, 0, []⟩
      else Except.error ExcKind.ResourceNotFound

/-- Adapter state: the descriptor table (`self.descriptors`) and the
backend filesystem (`self.fs`). -/
structure Ops where
  descriptors : List (Nat × BStream)
  fs : FS
deriving DecidableEq

/-- Descriptor lookup, `self.descriptors[fd]`. -/
def lookupFd (ds : List (Nat × BStream)) (fd : Nat) : Option BStream :=
  alookup ds fd

/-- Rebind a descriptor to a new stream value (Python mutates the stream
object held in the dict in place). -/
def setFd (ds : List (Nat × BStream)) (fd : Nat) (s : BStream) : List (Nat × BStream) :=
  ds.map (fun pe => if pe.1 = fd then (fd, s) else pe)

/-- Remove a descriptor, `self.descriptors.pop(fd)`. -/
def popFd (ds : List (Nat × BStream)) (fd : Nat) : List (Nat × BStream) :=
  ds.filter (fun pe => decide (pe.1 ≠ fd))

/-- The scan of `_getfd`, `next(x for x in itertools.count() if x not in
self.descriptors)`, with explicit fuel (the smallest free id is found
within `keys.length + 1` steps). -/
def getfdAux : Nat → Nat → List Nat → Nat
  | 0, n, _ => n
  | Nat.succ fuel, n, keys => if n ∈ keys then getfdAux fuel (n + 1) keys else n

/-- Shallow embedding of `_getfd`: the smallest non-negative integer not
currently bound in the descriptor table. -/
def getfd (keys : List Nat) : Nat :=
  getfdAux (keys.length + 1) 0 keys

/-! ## The adapter operations on descriptors -/

/-- Shallow embedding of `open` in operations.py: derive the mode, open a
backend stream, allocate the smallest free descriptor and bind it.
`Res.fatal` models the `UnboundLocalError` on an unmatched access mode. -/
def openOp (st : Ops) (p : FPath) (flags : Nat) : Res Nat × Ops :=
  match computeMode flags with
  | none => (Res.fatal, st)
  | some m =>
    match st.fs.openbin p m with
    | Except.error k => (Res.err (fileErrors k), st)
    | Except.ok s =>
      let fd := getfd (st.descriptors.map Prod.fst)
      (Res.ok fd, ⟨(fd, s) :: st.descriptors, st.fs⟩)

/-- Shallow embedding of `create` in operations.py: `fs.create(path)`,
then `FileExists` (EEXIST) when the resource pre-existed and
`posix.O_EXCL & mode` is set, otherwise `open(path, mode)` with the same
value. -/
def createOp (st : Ops) (p : FPath) (mode : Nat) : Res Nat × Ops :=
  match st.fs.create p with
  | Except.error k => (Res.err (fileErrors k), st)
  | Except.ok (created, fs1) =>
    if created = false ∧ mode &&& O_EXCL ≠ 0 then (Res.err (some EEXIST), ⟨st.descriptors, fs1⟩)
    else openOp ⟨st.descriptors, fs1⟩ p mode

/-- The try-block body of `truncate`: `EINVAL` when the stream is not
writable, otherwise seek to the start and truncate to `len`. -/
def truncBody (s : BStream) (len : Nat) : Res Unit × BStream :=
  if s.writable = true then (Res.ok (), (s.seek 0).truncate len)
  else (Res.err (some EINVAL), s)

/-- Shallow embedding of `truncate` in operations.py.  Note the two
different guards taken from the code: `_fd = fd or self.open(...)` opens
a fresh descriptor when `fd` is `None` OR the (falsy) integer `0`, while
the finally-block releases it only when `fd` is `None`. -/
def truncateOp (st : Ops) (p : FPath) (len : Nat) (fdArg : Option Nat) : Res Unit × Ops :=
  if fdArg = none ∨ fdArg = some 0 then
    match openOp st p O_RDWR with
    | (Res.ok nfd, st1) =>
      match lookupFd st1.descriptors nfd with
      | none => (Res.fatal, st1)
      | some s =>
        let rs := truncBody s len
        let ds2 := setFd st1.descriptors nfd rs.2
        if fdArg = none then (rs.1, ⟨popFd ds2 nfd, st1.fs⟩)
        else (rs.1, ⟨ds2, st1.fs⟩)
    | (Res.err c, st1) => (Res.err c, st1)
    | (Res.fatal, st1) => (Res.fatal, st1)
  else
    match fdArg with
    | some n =>
      (match lookupFd st.descriptors n with
       | none => (Res.err (some EBADF), st)
       | some s =>
         let rs := truncBody s len
         (rs.1, ⟨setFd st.descriptors n rs.2, st.fs⟩))
    | none => (Res.fatal, st)

/-- Shallow embedding of `write` in operations.py: look the descriptor
up (`KeyError` gives EBADF), seek to the offset, and only then check
writability — the failing branch keeps the moved position. -/
def writeOp (st : Ops) (p : FPath) (data : List Nat) (off : Nat) (fd : Nat) : Res Nat × Ops :=
  match lookupFd st.descriptors fd with
  | none => (Res.err (some EBADF), st)
  | some s =>
    let s1 := s.seek off
    if s1.writable = true then
      (Res.ok (s1.write data).2, ⟨setFd st.descriptors fd (s1.write data).1, st.fs⟩)
    else
      (Res.err (some EINVAL), ⟨setFd st.descriptors fd s1, st.fs⟩)

/-! ## Attribute synthesis (`_stat_from_info`) -/

/-- The resource type as tested by `_stat_from_info` (`info.type is
ResourceType.directory`). -/
inductive RType where
  | directory
  | other
deriving DecidableEq

/-- The flat attribute record built by `_stat_from_info`; a `none` field
is an absent dictionary key. -/
structure StatRecord where
  st_atime : Option Int := none
  st_mtime : Option Int := none
  st_ctime : Option Int := none
  st_size : Option Nat := none
  st_mode : Option Nat := none
  st_uid : Option Nat := none
  st_gid : Option Nat := none
  st_nlink : Option Nat := none
deriving DecidableEq

/-- A backend `ResourceInfo`: namespace presence flags and the fields
`_stat_from_info` reads (timestamps already as integer seconds). -/
structure ResourceInfo where
  hasStat : Bool
  rawStat : StatRecord
  hasDetails : Bool
  accessed : Option Int
  modified : Option Int
  created : Option Int
  metadataChanged : Option Int
  size : Option Nat
  rtype : RType
  hasAccess : Bool
  uid : Option Nat
  gid : Option Nat
  permissions : Option Nat
  name : Option String
deriving DecidableEq

/-- Permission bits masked by the umask: `bits & ~umask` on Python's
unbounded integers, computed inside the mask `bits`. -/
def permMask (bits umask : Nat) : Nat :=
  bits ^^^ (bits &&& umask)

/-- Python `info.name in '/'`: the name is a substring of "/", that is,
the empty string or "/" itself. -/
def nameIsRoot : Option String → Bool
  | some nm => nm = "" || nm = "/"
  | none => false

/-- Shallow embedding of `_stat_from_info`, with the process umask (read
in the code by the `os.umask(0); os.umask(umask)` get-and-restore) passed
as an explicit input. -/
def statFromInfo (umask : Nat) (info : ResourceInfo) : StatRecord :=
  if info.hasStat = true then info.rawStat
  else
    let r1 : StatRecord :=
      if info.hasDetails = true then
        { st_atime := info.accessed
          st_mtime := info.modified
          st_ctime := info.created <|> info.metadataChanged
          st_size := info.size
          st_mode := some (if info.rtype = RType.directory then S_IFDIR else S_IFREG) }
      else {}
    let mode := r1.st_mode.getD 0
    let r2 : StatRecord :=
      if info.hasAccess = true then
        let ra : StatRecord := { r1 with st_uid := info.uid, st_gid := info.gid }
        match info.permissions with
        | some pm => { ra with st_mode := some (mode ||| pm) }
        | none =>
          if info.hasDetails = true then
            if info.rtype = RType.directory then { ra with st_mode := some (mode ||| permMask 0o777 umask) }
            else { ra with st_mode := some (mode ||| permMask 0o666 umask) }
          else ra
      else r1
    if nameIsRoot info.name = true then { r2 with st_nlink := some 2 } else r2

/-! ## Concrete fixtures used by witnesses and counterexamples -/

/-- A small well-formed store: directories `/a` and `/b`, files `/a/x`
and `/b/y`. -/
def fsAB : FS :=
  ⟨[(["a"], Entry.dir), (["a", "x"], Entry.file [1]), (["b"], Entry.dir), (["b", "y"], Entry.file [2])]⟩

/-- A store holding the single file `/f` with one byte of content. -/
def fsF : FS :=
  ⟨[(["f"], Entry.file [7])]⟩

/-- Adapter state over `fsF` with no open descriptors. -/
def stF : Ops :=
  ⟨[], fsF⟩

/-- Adapter state whose descriptor 0 is a read-only stream at position 0. -/
def stRO : Ops :=
  ⟨[(0, ⟨true, false, 0, [1, 2, 3]⟩)], fsF⟩

/-- Adapter state whose descriptor 0 is a writable stream at position 0. -/
def stRW : Ops :=
  ⟨[(0, ⟨true, true, 0, [1, 2, 3]⟩)], fsF⟩

/-- A `ResourceInfo` with only the details namespace: a directory with no
access namespace at all. -/
def infoDetailsOnly : ResourceInfo :=
  ⟨false, {}, true, none, none, none, none, none, RType.directory, false, none, none, none, none⟩

/-- A `ResourceInfo` with details and access namespaces, explicit
permission bits `0o640`. -/
def infoPerm : ResourceInfo :=
  ⟨false, {}, true, none, none, none, none, none, RType.other, true, some 1, some 2, some 0o640, none⟩

/-! ## Helper lemmas: the smallest-free-id scan -/

theorem filterGe_succ_le (t : List Nat) (n : Nat) :
    (t.filter (fun k => decide (n + 1 ≤ k))).length ≤ (t.filter (fun k => decide (n ≤ k))).length := by
  induction t with
  | nil => simp
  | cons a t ih =>
    simp only [List.filter_cons, decide_eq_true_eq]
    by_cases h1 : n + 1 ≤ a
    · rw [if_pos h1, if_pos (by omega : n ≤ a)]
      simpa using ih
    · rw [if_neg h1]
      by_cases h2 : n ≤ a
      · rw [if_pos h2]
        simp only [List.length_cons]
        omega
      · rw [if_neg h2]
        exact ih

theorem filterGe_lt_of_mem (t : List Nat) (n : Nat) (h : n ∈ t) :
    (t.filter (fun k => decide (n + 1 ≤ k))).length < (t.filter (fun k => decide (n ≤ k))).length := by
  induction t with
  | nil => cases h
  | cons a t ih =>
    simp only [List.filter_cons, decide_eq_true_eq]
    rcases List.mem_cons.mp h with rfl | ht
    · rw [if_pos (le_refl n), if_neg (by omega : ¬ n + 1 ≤ n)]
      have := filterGe_succ_le t n
      simp only [List.length_cons]
      omega
    · by_cases h1 : n + 1 ≤ a
      · rw [if_pos h1, if_pos (by omega : n ≤ a)]
        have := ih ht
        simp only [List.length_cons]
        omega
      · rw [if_neg h1]
        by_cases h2 : n ≤ a
        · rw [if_pos h2]
          have := ih ht
          simp only [List.length_cons]
          omega
        · rw [if_neg h2]
          exact ih ht

theorem getfdAux_not_mem : ∀ (fuel n : Nat) (keys : List Nat),
    (keys.filter (fun k => decide (n ≤ k))).length < fuel → getfdAux fuel n keys ∉ keys := by
  intro fuel
  induction fuel with
  | zero => intro n keys h; exact absurd h (Nat.not_lt_zero _)
  | succ f ih =>
    intro n keys h
    unfold getfdAux
    by_cases hn : n ∈ keys
    · rw [if_pos hn]
      exact ih (n + 1) keys (by have := filterGe_lt_of_mem keys n hn; omega)
    · rw [if_neg hn]
      exact hn

theorem getfdAux_min : ∀ (fuel n : Nat) (keys : List Nat) (m : Nat),
    n ≤ m → m < getfdAux fuel n keys → m ∈ keys := by
  intro fuel
  induction fuel with
  | zero =>
    intro n keys m h1 h2
    unfold getfdAux at h2
    omega
  | succ f ih =>
    intro n keys m h1 h2
    unfold getfdAux at h2
    by_cases hn : n ∈ keys
    · rw [if_pos hn] at h2
      rcases Nat.eq_or_lt_of_le h1 with rfl | h
      · exact hn
      · exact ih (n + 1) keys m h h2
    · rw [if_neg hn] at h2
      omega

theorem getfd_not_mem (keys : List Nat) : getfd keys ∉ keys :=
  getfdAux_not_mem (keys.length + 1) 0 keys (by
    have h : (keys.filter (fun k => decide (0 ≤ k))).length ≤ keys.length :=
      List.Sublist.length_le (List.filter_sublist _)
    omega)

theorem getfd_min (keys : List Nat) : ∀ m, m < getfd keys → m ∈ keys :=
  fun m hm => getfdAux_min (keys.length + 1) 0 keys m (Nat.zero_le m) hm

/-! ## Helper lemmas: descriptor table and open -/

theorem alookup_mem {α β : Type} [DecidableEq α] (l : List (α × β)) (k : α) (v : β)
    (h : alookup l k = some v) : k ∈ l.map Prod.fst := by
  induction l with
  | nil => simp [alookup] at h
  | cons pe t ih =>
    by_cases hk : pe.1 = k
    · simp [hk]
    · simp only [alookup, if_neg hk] at h
      simp [ih h]

theorem setFd_of_not_mem (ds : List (Nat × BStream)) (fd : Nat) (s : BStream)
    (h : fd ∉ ds.map Prod.fst) : setFd ds fd s = ds := by
  induction ds with
  | nil => rfl
  | cons pe t ih =>
    simp only [List.map_cons, List.mem_cons, not_or] at h
    have hne : pe.1 ≠ fd := fun he => h.1 he.symm
    have ht := ih h.2
    simp only [setFd, List.map_cons, if_neg hne]
    simp only [setFd] at ht
    rw [ht]

theorem popFd_of_not_mem (ds : List (Nat × BStream)) (fd : Nat)
    (h : fd ∉ ds.map Prod.fst) : popFd ds fd = ds := by
  induction ds with
  | nil => rfl
  | cons pe t ih =>
    simp only [List.map_cons, List.mem_cons, not_or] at h
    have hne : pe.1 ≠ fd := fun he => h.1 he.symm
    have ht := ih h.2
    simp only [popFd, List.filter_cons, decide_eq_true_eq]
    rw [if_pos hne]
    simp only [popFd] at ht
    rw [ht]

theorem openOp_ok (st : Ops) (p : FPath) (flags fd : Nat) (st' : Ops)
    (h : openOp st p flags = (Res.ok fd, st')) :
    ∃ m s, computeMode flags = some m ∧ st.fs.openbin p m = Except.ok s ∧
      fd = getfd (st.descriptors.map Prod.fst) ∧
      st' = ⟨(fd, s) :: st.descriptors, st.fs⟩ := by
  unfold openOp at h
  split at h
  · simp at h
  · next m hm =>
    split at h
    · simp at h
    · next s hb =>
      simp only [Prod.mk.injEq, Res.ok.injEq] at h
      obtain ⟨h1, h2⟩ := h
      subst h1
      exact ⟨m, s, hm, hb, rfl, h2.symm⟩

theorem openOp_err_state (st : Ops) (p : FPath) (flags : Nat) (c : Option Nat) (st' : Ops)
    (h : openOp st p flags = (Res.err c, st')) : st' = st := by
  unfold openOp at h
  split at h
  · simp at h
  · split at h
    · simp only [Prod.mk.injEq] at h
      exact h.2.symm
    · simp at h

theorem openOp_fatal_state (st : Ops) (p : FPath) (flags : Nat) (st' : Ops)
    (h : openOp st p flags = (Res.fatal, st')) : st' = st := by
  unfold openOp at h
  split at h
  · simp only [Prod.mk.injEq] at h
    exact h.2.symm
  · split at h
    · simp at h
    · simp at h

/-! ## Claim C3 -/

/-- C3: recognized backend error categories and descriptor-lookup failures
(`KeyError`) are translated per the section-6 table into a per-call
`FuseOSError`; but a domain error whose class has no entry in the table
(here `CreateFailed`, an `FSError` subclass) is surfaced as
`FuseOSError(None)` — an undefined/null code, not a defined generic I/O
code.  This confirms the defect acknowledged by the spec (section 9): the
code contradicts the claim's "never to an undefined/null code". -/
theorem C3_error_translation_null_code :
    convertExit (RaisedExc.fsExc ExcKind.KeyError) = ExitResult.raiseFuse (some EBADF) ∧
    convertExit (RaisedExc.fsExc ExcKind.ResourceNotFound) = ExitResult.raiseFuse (some ENOENT) ∧
    convertExit (RaisedExc.fsExc ExcKind.DestinationExists) = ExitResult.raiseFuse (some EEXIST) ∧
    convertExit (RaisedExc.fsExc ExcKind.DirectoryExists) = ExitResult.raiseFuse (some EEXIST) ∧
    convertExit (RaisedExc.fsExc ExcKind.FileExists) = ExitResult.raiseFuse (some EEXIST) ∧
    convertExit (RaisedExc.fsExc ExcKind.DirectoryNotEmpty) = ExitResult.raiseFuse (some ENOTEMPTY) ∧
    convertExit (RaisedExc.fsExc ExcKind.DirectoryExpected) = ExitResult.raiseFuse (some ENOTDIR) ∧
    convertExit (RaisedExc.fsExc ExcKind.FileExpected) = ExitResult.raiseFuse (some EISDIR) ∧
    convertExit (RaisedExc.fsExc ExcKind.PermissionDenied) = ExitResult.raiseFuse (some EACCES) ∧
    convertExit (RaisedExc.fsExc ExcKind.Unsupported) = ExitResult.raiseFuse (some ENOTSUP) ∧
    convertExit (RaisedExc.fsExc ExcKind.CreateFailed) = ExitResult.raiseFuse none ∧
    convertExit (RaisedExc.fsExc ExcKind.FSError) = ExitResult.raiseFuse none ∧
    fileErrors ExcKind.CreateFailed = none :=
  ⟨rfl, rfl, rfl, rfl, rfl, rfl, rfl, rfl, rfl, rfl, rfl, rfl, rfl⟩

/-! ## Claim C4 -/

/-- C4: at every state of the descriptor table (reachable ones included),
`_getfd` returns the smallest non-negative integer not currently bound:
the returned id is not among the open ids (so it is unique once bound and
never reuses an open id), everything below it is bound, and the same two
facts hold again after any id is released (erased), so a released id
becomes eligible and the smallest free id is always the next one chosen. -/
theorem C4_descriptor_allocation (keys : List Nat) :
    getfd keys ∉ keys ∧
    (∀ m, m < getfd keys → m ∈ keys) ∧
    (∀ fd, getfd (keys.erase fd) ∉ keys.erase fd ∧
      ∀ m, m < getfd (keys.erase fd) → m ∈ keys.erase fd) :=
  ⟨getfd_not_mem keys, getfd_min keys,
   fun fd => ⟨getfd_not_mem (keys.erase fd), getfd_min (keys.erase fd)⟩⟩

/-- Witness for C4 at the concrete table {0, 1, 3}: the allocated id is
not bound, and 1 (below the allocated id 2) is bound. -/
theorem C4_descriptor_allocation_witness :
    getfd [0, 1, 3] ∉ ([0, 1, 3] : List Nat) ∧ (1 : Nat) ∈ ([0, 1, 3] : List Nat) :=
  ⟨(C4_descriptor_allocation [0, 1, 3]).1,
   (C4_descriptor_allocation [0, 1, 3]).2.1 1 (by decide)⟩

/-! ## Claim C2 -/

/-- C2: whenever `open` returns a descriptor, the backend stream bound to
it was opened in the mode given by the decision table over the POSIX
access-mode bits and the APPEND/TRUNC/write-intent flags. -/
theorem C2_open_mode_table (st : Ops) (p : FPath) (flags fd : Nat) (st' : Ops)
    (h : openOp st p flags = (Res.ok fd, st')) :
    ∃ m s, computeMode flags = some m ∧ st.fs.openbin p m = Except.ok s ∧
      lookupFd st'.descriptors fd = some s ∧
      (flags &&& O_ACCMODE = O_WRONLY → flags &&& O_APPEND ≠ 0 → m = OpenMode.a) ∧
      (flags &&& O_ACCMODE = O_WRONLY → flags &&& O_APPEND = 0 → m = OpenMode.w) ∧
      (flags &&& O_ACCMODE = O_RDWR → flags &&& O_TRUNC ≠ 0 → m = OpenMode.wp) ∧
      (flags &&& O_ACCMODE = O_RDWR → flags &&& O_TRUNC = 0 → m = OpenMode.rp) ∧
      (flags &&& O_ACCMODE = O_RDONLY → flags &&& (ST_WRITE ||| O_TRUNC) ≠ 0 → m = OpenMode.rp) ∧
      (flags &&& O_ACCMODE = O_RDONLY → flags &&& (ST_WRITE ||| O_TRUNC) = 0 → m = OpenMode.r) := by
  obtain ⟨m, s, hm, hs, hfd, hst⟩ := openOp_ok st p flags fd st' h
  refine ⟨m, s, hm, hs, ?_, ?_, ?_, ?_, ?_, ?_, ?_⟩
  · rw [hst, hfd]
    simp [lookupFd, alookup]
  · intro h1 h2
    have hc : computeMode flags = some OpenMode.a := by
      unfold computeMode
      rw [if_pos h1, if_pos h2]
    rw [hc] at hm
    exact (Option.some.inj hm).symm
  · intro h1 h2
    have hc : computeMode flags = some OpenMode.w := by
      unfold computeMode
      rw [if_pos h1, if_neg (fun hx => hx h2)]
    rw [hc] at hm
    exact (Option.some.inj hm).symm
  · intro h1 h2
    have hn1 : ¬ flags &&& O_ACCMODE = O_WRONLY := by rw [h1]; decide
    have hc : computeMode flags = some OpenMode.wp := by
      unfold computeMode
      rw [if_neg hn1, if_pos h1, if_pos h2]
    rw [hc] at hm
    exact (Option.some.inj hm).symm
  · intro h1 h2
    have hn1 : ¬ flags &&& O_ACCMODE = O_WRONLY := by rw [h1]; decide
    have hc : computeMode flags = some OpenMode.rp := by
      unfold computeMode
      rw [if_neg hn1, if_pos h1, if_neg (fun hx => hx h2)]
    rw [hc] at hm
    exact (Option.some.inj hm).symm
  · intro h1 h2
    have hn1 : ¬ flags &&& O_ACCMODE = O_WRONLY := by rw [h1]; decide
    have hn2 : ¬ flags &&& O_ACCMODE = O_RDWR := by rw [h1]; decide
    have hc : computeMode flags = some OpenMode.rp := by
      unfold computeMode
      rw [if_neg hn1, if_neg hn2, if_pos h1, if_pos h2]
    rw [hc] at hm
    exact (Option.some.inj hm).symm
  · intro h1 h2
    have hn1 : ¬ flags &&& O_ACCMODE = O_WRONLY := by rw [h1]; decide
    have hn2 : ¬ flags &&& O_ACCMODE = O_RDWR := by rw [h1]; decide
    have hc : computeMode flags = some OpenMode.r := by
      unfold computeMode
      rw [if_neg hn1, if_neg hn2, if_pos h1, if_neg (fun hx => hx h2)]
    rw [hc] at hm
    exact (Option.some.inj hm).symm

/-- Witness for C2: opening `/f` with flags `O_RDWR` (TRUNC clear) binds
descriptor 0 to a read-write stream over the file's content. -/
theorem C2_open_mode_table_witness :
    ∃ m s, computeMode 2 = some m ∧ fsF.openbin ["f"] m = Except.ok s ∧
      lookupFd [(0, ⟨true, true, 0, [7]⟩)] 0 = some s ∧
      ((2 : Nat) &&& O_ACCMODE = O_WRONLY → (2 : Nat) &&& O_APPEND ≠ 0 → m = OpenMode.a) ∧
      ((2 : Nat) &&& O_ACCMODE = O_WRONLY → (2 : Nat) &&& O_APPEND = 0 → m = OpenMode.w) ∧
      ((2 : Nat) &&& O_ACCMODE = O_RDWR → (2 : Nat) &&& O_TRUNC ≠ 0 → m = OpenMode.wp) ∧
      ((2 : Nat) &&& O_ACCMODE = O_RDWR → (2 : Nat) &&& O_TRUNC = 0 → m = OpenMode.rp) ∧
      ((2 : Nat) &&& O_ACCMODE = O_RDONLY → (2 : Nat) &&& (ST_WRITE ||| O_TRUNC) ≠ 0 → m = OpenMode.rp) ∧
      ((2 : Nat) &&& O_ACCMODE = O_RDONLY → (2 : Nat) &&& (ST_WRITE ||| O_TRUNC) = 0 → m = OpenMode.r) :=
  C2_open_mode_table stF ["f"] 2 0 ⟨[(0, ⟨true, true, 0, [7]⟩)], fsF⟩ rfl

/-! ## Claim C5 -/

/-- C5: `create` fails with EEXIST (AlreadyExists) when the exclusive bit
of the supplied value is set and the resource already exists; otherwise
the resource is created — idempotently (state unchanged) when it
pre-exists with the flag clear — and `open` is performed with the very
same flags value, its descriptor being the result. -/
theorem C5_create_exclusive (st : Ops) (p : FPath) (mode : Nat) :
    (mode &&& O_EXCL ≠ 0 → st.fs.exists_ p = true →
      createOp st p mode = (Res.err (some EEXIST), st)) ∧
    (mode &&& O_EXCL = 0 → st.fs.exists_ p = true →
      createOp st p mode = openOp st p mode) ∧
    (st.fs.exists_ p = false → st.fs.isdir p.dropLast = true →
      createOp st p mode = openOp ⟨st.descriptors, ⟨(p, Entry.file []) :: st.fs.entries⟩⟩ p mode) := by
  have hcr1 : st.fs.exists_ p = true → st.fs.create p = Except.ok (false, st.fs) := by
    intro he
    unfold FS.create
    rw [if_pos he]
  refine ⟨?_, ?_, ?_⟩
  · intro hx he
    simp [createOp, hcr1 he, hx]
  · intro hx he
    simp [createOp, hcr1 he, hx]
  · intro he hp
    have hcr2 : st.fs.create p = Except.ok (true, ⟨(p, Entry.file []) :: st.fs.entries⟩) := by
      unfold FS.create
      rw [if_neg (by simp [he]), if_neg (by simp [hp])]
    simp [createOp, hcr2]

/-- Witness for C5: with `/f` already present and the exclusive bit set
(`mode = 0o200`), `create` fails EEXIST and leaves the state unchanged. -/
theorem C5_create_exclusive_witness :
    createOp stF ["f"] 128 = (Res.err (some EEXIST), stF) :=
  (C5_create_exclusive stF ["f"] 128).1 (by decide) rfl

/-! ## Claim C7 -/

/-- C7 counterexample: on a read-only descriptor, `write` with offset 5
fails EINVAL as claimed, but the stream position after the call is 5, not
the pre-call 0 — the seek happens before the writability check, so the
claim's "position left unchanged" is false on the code. -/
theorem C7_write_position_counterexample :
    (writeOp stRO ["f"] [9] 5 0).1 = Res.err (some EINVAL) ∧
    (lookupFd (writeOp stRO ["f"] [9] 5 0).2.descriptors 0).map BStream.pos = some 5 ∧
    (lookupFd stRO.descriptors 0).map BStream.pos = some 0 ∧
    (some 5 : Option Nat) ≠ some 0 :=
  ⟨rfl, rfl, rfl, by decide⟩

/-- C7 amended: `write` fails EINVAL exactly when the descriptor's stream
is not writable, and otherwise writes `data` at `offset` returning the
byte count; but the seek to `offset` is performed before the writability
check, so even the failing call leaves the stream repositioned at
`offset`. -/
theorem C7_write_seek_before_check (st : Ops) (p : FPath) (data : List Nat) (off fd : Nat)
    (s : BStream) (h : lookupFd st.descriptors fd = some s) :
    (s.writable = false →
      writeOp st p data off fd =
        (Res.err (some EINVAL), ⟨setFd st.descriptors fd (s.seek off), st.fs⟩)) ∧
    (s.writable = true →
      writeOp st p data off fd =
        (Res.ok data.length, ⟨setFd st.descriptors fd ((s.seek off).write data).1, st.fs⟩)) := by
  constructor
  · intro hw
    simp [writeOp, h, BStream.seek, hw]
  · intro hw
    simp [writeOp, h, BStream.seek, hw, BStream.write]

/-- Witness for C7 amended, on a writable descriptor: the write succeeds,
returns the byte count, and repositions the stream. -/
theorem C7_write_seek_before_check_witness :
    writeOp stRW ["f"] [9] 5 0 =
      (Res.ok 1, ⟨setFd stRW.descriptors 0 (((⟨true, true, 0, [1, 2, 3]⟩ : BStream).seek 5).write [9]).1, stRW.fs⟩) :=
  (C7_write_seek_before_check stRW ["f"] [9] 5 0 ⟨true, true, 0, [1, 2, 3]⟩ rfl).2 rfl

/-! ## Claim C8 -/

/-- C8 counterexample: for a `ResourceInfo` with the details namespace
(directory) but no access namespace at all, `_stat_from_info` leaves the
mode as the bare type bit: no default permission bits are applied, even
with umask 0, contradicting the claim's "otherwise (whenever explicit
permission bits are not supplied) ... default to 0o777 masked by the
umask". -/
theorem C8_permission_default_counterexample :
    (statFromInfo 0 infoDetailsOnly).st_mode = some S_IFDIR ∧
    S_IFDIR ≠ S_IFDIR ||| permMask 0o777 0 :=
  ⟨rfl, by decide⟩

/-- C8 amended: explicit permission bits from the access namespace are
OR-ed onto the type bit; the 0o777/0o666-masked-by-umask default applies
only when the access namespace is present without explicit bits (details
present); and when the access namespace is absent the mode stays the bare
type bit. -/
theorem C8_mode_synthesis (umask : Nat) (info : ResourceInfo)
    (h : info.hasStat = false) (hd : info.hasDetails = true) :
    (∀ pm, info.hasAccess = true → info.permissions = some pm →
      (statFromInfo umask info).st_mode =
        some ((if info.rtype = RType.directory then S_IFDIR else S_IFREG) ||| pm)) ∧
    (info.hasAccess = true → info.permissions = none → info.rtype = RType.directory →
      (statFromInfo umask info).st_mode = some (S_IFDIR ||| permMask 0o777 umask)) ∧
    (info.hasAccess = true → info.permissions = none → info.rtype = RType.other →
      (statFromInfo umask info).st_mode = some (S_IFREG ||| permMask 0o666 umask)) ∧
    (info.hasAccess = false →
      (statFromInfo umask info).st_mode =
        some (if info.rtype = RType.directory then S_IFDIR else S_IFREG)) := by
  refine ⟨?_, ?_, ?_, ?_⟩
  · intro pm ha hp
    unfold statFromInfo
    rw [if_neg (by simp [h])]
    simp [hd, ha, hp]
    try split <;> simp
  · intro ha hp hr
    unfold statFromInfo
    rw [if_neg (by simp [h])]
    simp [hd, ha, hp, hr]
    try split <;> simp
  · intro ha hp hr
    unfold statFromInfo
    rw [if_neg (by simp [h])]
    simp [hd, ha, hp, hr]
    try split <;> simp
  · intro ha
    unfold statFromInfo
    rw [if_neg (by simp [h])]
    simp [hd, ha]
    try split <;> simp

/-- Witness for C8 amended: explicit bits 0o640 on a regular resource
give mode `S_IFREG | 0o640`. -/
theorem C8_mode_synthesis_witness :
    (statFromInfo 0 infoPerm).st_mode =
      some ((if infoPerm.rtype = RType.directory then S_IFDIR else S_IFREG) ||| 0o640) :=
  (C8_mode_synthesis 0 infoPerm rfl rfl).1 0o640 rfl rfl

/-! ## Claim C6 -/

/-- C6: `truncate` with no descriptor supplied opens an ephemeral
read-write descriptor and releases it in every outcome (the table is
unchanged afterward, open failures included); the body fails EINVAL
exactly when the stream is not writable, and otherwise seeks to the start
and truncates the content to exactly `len` bytes. -/
theorem setFd_cons_self (fd : Nat) (v s : BStream) (ds : List (Nat × BStream)) :
    setFd ((fd, v) :: ds) fd s = (fd, s) :: setFd ds fd s := by
  simp [setFd]

theorem popFd_cons_self (fd : Nat) (v : BStream) (ds : List (Nat × BStream)) :
    popFd ((fd, v) :: ds) fd = popFd ds fd := by
  simp [popFd]

theorem C6_truncate_ephemeral (st : Ops) (p : FPath) (len : Nat) :
    (∀ r st', truncateOp st p len none = (r, st') → st'.descriptors = st.descriptors) ∧
    (∀ s, st.fs.openbin p OpenMode.rp = Except.ok s →
      truncateOp st p len none = ((truncBody s len).1, st)) ∧
    (∀ s l, s.writable = false → truncBody s l = (Res.err (some EINVAL), s)) ∧
    (∀ s l, s.writable = true →
      truncBody s l = (Res.ok (), (s.seek 0).truncate l) ∧
      ((s.seek 0).truncate l).content.length = l ∧
      ((s.seek 0).truncate l).pos = 0) := by
  have hm : computeMode O_RDWR = some OpenMode.rp := by decide
  have hfresh := getfd_not_mem (st.descriptors.map Prod.fst)
  have hset : ∀ v, setFd st.descriptors (getfd (st.descriptors.map Prod.fst)) v = st.descriptors :=
    fun v => setFd_of_not_mem _ _ _ hfresh
  have hpop : popFd st.descriptors (getfd (st.descriptors.map Prod.fst)) = st.descriptors :=
    popFd_of_not_mem _ _ hfresh
  refine ⟨?_, ?_, ?_, ?_⟩
  · intro r st' h
    rcases hb : st.fs.openbin p OpenMode.rp with k | s
    · have ho : openOp st p O_RDWR = (Res.err (fileErrors k), st) := by
        simp [openOp, hm, hb]
      simp only [truncateOp, ho] at h
      rw [if_pos (Or.inl trivial)] at h
      simp only [Prod.mk.injEq] at h
      rw [← h.2]
    · have ho : openOp st p O_RDWR =
          (Res.ok (getfd (st.descriptors.map Prod.fst)),
           ⟨(getfd (st.descriptors.map Prod.fst), s) :: st.descriptors, st.fs⟩) := by
        simp [openOp, hm, hb]
      simp [truncateOp, ho, lookupFd, alookup, setFd_cons_self, hset, popFd_cons_self, hpop] at h
      rw [← h.2]
  · intro s hs
    have ho : openOp st p O_RDWR =
        (Res.ok (getfd (st.descriptors.map Prod.fst)),
         ⟨(getfd (st.descriptors.map Prod.fst), s) :: st.descriptors, st.fs⟩) := by
      simp [openOp, hm, hs]
    simp [truncateOp, ho, lookupFd, alookup, setFd_cons_self, hset, popFd_cons_self, hpop]
  · intro s l hw
    unfold truncBody
    rw [if_neg (by simp [hw])]
  · intro s l hw
    refine ⟨?_, ?_, rfl⟩
    · unfold truncBody
      rw [if_pos hw]
    · simp [BStream.truncate, BStream.seek]
      omega

/-- Witness for C6: truncating `/f` to 5 bytes with no descriptor leaves
the state exactly as before the call. -/
theorem C6_truncate_ephemeral_witness :
    truncateOp stRW ["f"] 5 none = ((truncBody ⟨true, true, 0, [7]⟩ 5).1, stRW) :=
  (C6_truncate_ephemeral stRW ["f"] 5).2.1 ⟨true, true, 0, [7]⟩ rfl

/-! ## Claim C9 -/

/-- C9: `truncate(path, length, fd=0)` ignores the supplied (valid)
descriptor 0 because `fd or self.open(...)` treats the integer 0 as
falsy: a fresh read-write descriptor is opened on the path, the fresh
stream is the one truncated, descriptor 0 keeps its old stream untouched,
and — since the cleanup runs only when `fd is None` — the fresh
descriptor stays bound in the table after the call. -/
theorem C9_truncate_fd0_leak (st : Ops) (p : FPath) (len : Nat) (s s0 : BStream)
    (h0 : lookupFd st.descriptors 0 = some s0)
    (hs : st.fs.openbin p OpenMode.rp = Except.ok s)
    (hw : s.writable = true) :
    truncateOp st p len (some 0) =
      (Res.ok (),
       ⟨(getfd (st.descriptors.map Prod.fst), (s.seek 0).truncate len) :: st.descriptors, st.fs⟩) ∧
    getfd (st.descriptors.map Prod.fst) ≠ 0 ∧
    lookupFd ((getfd (st.descriptors.map Prod.fst), (s.seek 0).truncate len) :: st.descriptors) 0 =
      some s0 ∧
    lookupFd ((getfd (st.descriptors.map Prod.fst), (s.seek 0).truncate len) :: st.descriptors)
      (getfd (st.descriptors.map Prod.fst)) = some ((s.seek 0).truncate len) := by
  have hm : computeMode O_RDWR = some OpenMode.rp := by decide
  have hfresh := getfd_not_mem (st.descriptors.map Prod.fst)
  have h0mem : (0 : Nat) ∈ st.descriptors.map Prod.fst := alookup_mem _ _ _ h0
  have hne0 : getfd (st.descriptors.map Prod.fst) ≠ 0 :=
    fun heq => hfresh (by rw [heq]; exact h0mem)
  have hset : ∀ v, setFd st.descriptors (getfd (st.descriptors.map Prod.fst)) v = st.descriptors :=
    fun v => setFd_of_not_mem _ _ _ hfresh
  have htb : truncBody s len = (Res.ok (), (s.seek 0).truncate len) := by
    unfold truncBody
    rw [if_pos hw]
  have ho : openOp st p O_RDWR =
      (Res.ok (getfd (st.descriptors.map Prod.fst)),
       ⟨(getfd (st.descriptors.map Prod.fst), s) :: st.descriptors, st.fs⟩) := by
    simp [openOp, hm, hs]
  refine ⟨?_, hne0, ?_, ?_⟩
  · simp [truncateOp, ho, lookupFd, alookup, setFd_cons_self, hset, htb]
  · simp only [lookupFd, alookup, if_neg hne0]
    exact h0
  · simp [lookupFd, alookup]

/-- Witness for C9: with descriptor 0 open and `/f` present, the call
with fd 0 succeeds, binds fresh descriptor 1 to the truncated stream, and
leaves both bound afterward. -/
theorem C9_truncate_fd0_leak_witness :
    truncateOp stRW ["f"] 5 (some 0) =
      (Res.ok (),
       ⟨[(1, ⟨true, true, 0, [7, 0, 0, 0, 0]⟩), (0, ⟨true, true, 0, [1, 2, 3]⟩)], fsF⟩) ∧
    (1 : Nat) ≠ 0 ∧
    lookupFd [(1, ⟨true, true, 0, [7, 0, 0, 0, 0]⟩), (0, ⟨true, true, 0, [1, 2, 3]⟩)] 0 =
      some ⟨true, true, 0, [1, 2, 3]⟩ ∧
    lookupFd [(1, ⟨true, true, 0, [7, 0, 0, 0, 0]⟩), (0, ⟨true, true, 0, [1, 2, 3]⟩)] 1 =
      some ⟨true, true, 0, [7, 0, 0, 0, 0]⟩ :=
  C9_truncate_fd0_leak stRW ["f"] 5 ⟨true, true, 0, [7]⟩ ⟨true, true, 0, [1, 2, 3]⟩ rfl rfl rfl

/-! ## Helper lemmas for rename -/

theorem proper_prefix_length {n q : FPath} (h1 : q.take n.length = n) (h2 : q ≠ n) :
    n.length < q.length := by
  by_contra hc
  push_neg at hc
  rw [List.take_of_length_le hc] at h1
  exact h2 h1

/-- In a well-formed store, a path that does not exist has no descendants,
so the directory just created at it is empty. -/
theorem hasChildren_mkdirRaw (fs : FS) (n : FPath) (hwf : FS.WF fs)
    (hne : fs.exists_ n = false) : (fs.mkdirRaw n).hasChildren n = false := by
  simp only [FS.hasChildren, FS.mkdirRaw, List.any_cons]
  rw [Bool.or_eq_false_iff]
  constructor
  · simp
  · rw [List.any_eq_false]
    intro pe hmem
    simp only [decide_eq_true_eq, not_and, not_not]
    intro htake
    by_contra hqe
    have hlt : n.length < pe.1.length := proper_prefix_length htake hqe
    have hdir := (hwf pe hmem).2 n.length hlt
    rw [htake] at hdir
    rw [FS.exists_, hdir] at hne
    cases hne

theorem isempty_mkdirRaw (fs : FS) (n : FPath) (hwf : FS.WF fs)
    (hne : fs.exists_ n = false) (hn : n ≠ []) :
    (fs.mkdirRaw n).isempty n = Except.ok true := by
  have ht : (fs.mkdirRaw n).typeOf n = some Entry.dir := by
    unfold FS.typeOf FS.mkdirRaw
    rw [if_neg hn]
    simp [alookup]
  simp [FS.isempty, ht, hasChildren_mkdirRaw fs n hwf hne]

/-! ## Claim C1 -/

/-- C1: on a well-formed store and once both arguments normalize, `rename`
performs exactly the claimed steps in order: (1) ENOENT if either
normalized path is the root; (2) EINVAL if `new` lies inside the subtree
rooted at `old`; (3) ENOTDIR if an ancestor of the normalized `old` is
not a directory; (4) for a directory source: create `new` when absent
(failing ENOENT if its parent is no directory), fail ENOTEMPTY when `new`
is a non-empty directory, otherwise move the tree; (5) for a regular
source: fail EISDIR when `new` is a directory, otherwise move/overwrite;
and on every error outcome the store — in particular the subtree at
`old` — is unchanged. -/
theorem C1_rename_steps (fs : FS) (old new : List String) (o n : FPath)
    (hwf : FS.WF fs) (ho : normpath old = Except.ok o) (hn : normpath new = Except.ok n) :
    ((o = [] ∨ n = []) → renameOp fs old new = (Res.err (some ENOENT), fs)) ∧
    (o ≠ [] → n ≠ [] → isparent o n = true →
      renameOp fs old new = (Res.err (some EINVAL), fs)) ∧
    (o ≠ [] → n ≠ [] → isparent o n = false → ancestorsAreDirs fs o = false →
      renameOp fs old new = (Res.err (some ENOTDIR), fs)) ∧
    (renameGuardsOk fs o n → fs.typeOf o = some Entry.dir → fs.exists_ n = false →
      (fs.isdir n.dropLast = false → renameOp fs old new = (Res.err (some ENOENT), fs)) ∧
      (fs.isdir n.dropLast = true →
        renameOp fs old new = (Res.ok (), (fs.mkdirRaw n).movedir o n))) ∧
    (renameGuardsOk fs o n → fs.typeOf o = some Entry.dir → fs.typeOf n = some Entry.dir →
      (fs.hasChildren n = true → renameOp fs old new = (Res.err (some ENOTEMPTY), fs)) ∧
      (fs.hasChildren n = false → renameOp fs old new = (Res.ok (), fs.movedir o n))) ∧
    (∀ c, renameGuardsOk fs o n → fs.typeOf o = some (Entry.file c) →
      (fs.isdir n = true → renameOp fs old new = (Res.err (some EISDIR), fs)) ∧
      (fs.isdir n = false → renameOp fs old new = (Res.ok (), fs.move o n))) ∧
    (∀ e fs', renameOp fs old new = (Res.err e, fs') → fs' = fs) := by
  have heq : renameOp fs old new = renameCore fs o n := by
    simp [renameOp, ho, hn]
  have hNot1 : o ≠ [] → n ≠ [] → ¬(o = [] ∨ n = []) := fun a b hc => hc.elim a b
  have hA : (o = [] ∨ n = []) → renameCore fs o n = (Res.err (some ENOENT), fs) := by
    intro h1
    unfold renameCore
    rw [if_pos h1]
  have hB : o ≠ [] → n ≠ [] → isparent o n = true →
      renameCore fs o n = (Res.err (some EINVAL), fs) := by
    intro a b c
    unfold renameCore
    rw [if_neg (hNot1 a b), if_pos c]
  have hC : o ≠ [] → n ≠ [] → isparent o n = false → ancestorsAreDirs fs o = false →
      renameCore fs o n = (Res.err (some ENOTDIR), fs) := by
    intro a b c d
    unfold renameCore
    rw [if_neg (hNot1 a b), if_neg (by simp [c]), if_pos d]
  have hNone : renameGuardsOk fs o n → fs.typeOf o = none →
      renameCore fs o n = (Res.err (some ENOENT), fs) := by
    rintro ⟨a, b, c, d⟩ hto
    have hgt : fs.gettype o = Except.error ExcKind.ResourceNotFound := by
      simp [FS.gettype, hto]
    unfold renameCore
    rw [if_neg (hNot1 a b), if_neg (by simp [c]), if_neg (by simp [d])]
    simp [hgt, fileErrors]
  have hD1a : renameGuardsOk fs o n → fs.typeOf o = some Entry.dir → fs.exists_ n = false →
      fs.isdir n.dropLast = false → renameCore fs o n = (Res.err (some ENOENT), fs) := by
    rintro ⟨a, b, c, d⟩ hto hex hpd
    have hgt : fs.gettype o = Except.ok Entry.dir := by simp [FS.gettype, hto]
    have hmk : fs.makedir n = Except.error ExcKind.ResourceNotFound := by
      unfold FS.makedir
      rw [if_neg (by simp [hex]), if_pos hpd]
    unfold renameCore
    rw [if_neg (hNot1 a b), if_neg (by simp [c]), if_neg (by simp [d])]
    simp [hgt, hex, hmk, fileErrors]
  have hD1b : renameGuardsOk fs o n → fs.typeOf o = some Entry.dir → fs.exists_ n = false →
      fs.isdir n.dropLast = true →
      renameCore fs o n = (Res.ok (), (fs.mkdirRaw n).movedir o n) := by
    rintro ⟨a, b, c, d⟩ hto hex hpd
    have hgt : fs.gettype o = Except.ok Entry.dir := by simp [FS.gettype, hto]
    have hmk : fs.makedir n = Except.ok (fs.mkdirRaw n) := by
      unfold FS.makedir
      rw [if_neg (by simp [hex]), if_neg (by simp [hpd])]
    have hie := isempty_mkdirRaw fs n hwf hex b
    unfold renameCore
    rw [if_neg (hNot1 a b), if_neg (by simp [c]), if_neg (by simp [d])]
    simp [hgt, hex, hmk, hie]
  have hD2a : renameGuardsOk fs o n → fs.typeOf o = some Entry.dir →
      fs.typeOf n = some Entry.dir → fs.hasChildren n = true →
      renameCore fs o n = (Res.err (some ENOTEMPTY), fs) := by
    rintro ⟨a, b, c, d⟩ hto htn hch
    have hgt : fs.gettype o = Except.ok Entry.dir := by simp [FS.gettype, hto]
    have hex : fs.exists_ n = true := by simp [FS.exists_, htn]
    have hie : fs.isempty n = Except.ok false := by simp [FS.isempty, htn, hch]
    unfold renameCore
    rw [if_neg (hNot1 a b), if_neg (by simp [c]), if_neg (by simp [d])]
    simp [hgt, hex, hie]
  have hD2b : renameGuardsOk fs o n → fs.typeOf o = some Entry.dir →
      fs.typeOf n = some Entry.dir → fs.hasChildren n = false →
      renameCore fs o n = (Res.ok (), fs.movedir o n) := by
    rintro ⟨a, b, c, d⟩ hto htn hch
    have hgt : fs.gettype o = Except.ok Entry.dir := by simp [FS.gettype, hto]
    have hex : fs.exists_ n = true := by simp [FS.exists_, htn]
    have hie : fs.isempty n = Except.ok true := by simp [FS.isempty, htn, hch]
    unfold renameCore
    rw [if_neg (hNot1 a b), if_neg (by simp [c]), if_neg (by simp [d])]
    simp [hgt, hex, hie]
  have hFileN : ∀ c0, renameGuardsOk fs o n → fs.typeOf o = some Entry.dir →
      fs.typeOf n = some (Entry.file c0) →
      renameCore fs o n = (Res.err (some ENOTDIR), fs) := by
    rintro c0 ⟨a, b, c, d⟩ hto htn
    have hgt : fs.gettype o = Except.ok Entry.dir := by simp [FS.gettype, hto]
    have hex : fs.exists_ n = true := by simp [FS.exists_, htn]
    have hie : fs.isempty n = Except.error ExcKind.DirectoryExpected := by
      simp [FS.isempty, htn]
    unfold renameCore
    rw [if_neg (hNot1 a b), if_neg (by simp [c]), if_neg (by simp [d])]
    simp [hgt, hex, hie, fileErrors]
  have hE1 : ∀ c0, renameGuardsOk fs o n → fs.typeOf o = some (Entry.file c0) →
      fs.isdir n = true → renameCore fs o n = (Res.err (some EISDIR), fs) := by
    rintro c0 ⟨a, b, c, d⟩ hto hnd
    have hgt : fs.gettype o = Except.ok (Entry.file c0) := by simp [FS.gettype, hto]
    unfold renameCore
    rw [if_neg (hNot1 a b), if_neg (by simp [c]), if_neg (by simp [d])]
    simp [hgt, hnd]
  have hE2 : ∀ c0, renameGuardsOk fs o n → fs.typeOf o = some (Entry.file c0) →
      fs.isdir n = false → renameCore fs o n = (Res.ok (), fs.move o n) := by
    rintro c0 ⟨a, b, c, d⟩ hto hnd
    have hgt : fs.gettype o = Except.ok (Entry.file c0) := by simp [FS.gettype, hto]
    unfold renameCore
    rw [if_neg (hNot1 a b), if_neg (by simp [c]), if_neg (by simp [d])]
    simp [hgt, hnd]
  refine ⟨fun h1 => heq.trans (hA h1),
          fun a b c => heq.trans (hB a b c),
          fun a b c d => heq.trans (hC a b c d),
          fun hg hto hex => ⟨fun hpd => heq.trans (hD1a hg hto hex hpd),
                             fun hpd => heq.trans (hD1b hg hto hex hpd)⟩,
          fun hg hto htn => ⟨fun hch => heq.trans (hD2a hg hto htn hch),
                             fun hch => heq.trans (hD2b hg hto htn hch)⟩,
          fun c0 hg hto => ⟨fun hnd => heq.trans (hE1 c0 hg hto hnd),
                            fun hnd => heq.trans (hE2 c0 hg hto hnd)⟩,
          ?_⟩
  intro e fs' h
  rw [heq] at h
  by_cases h1 : o = [] ∨ n = []
  · rw [hA h1] at h
    simp only [Prod.mk.injEq] at h
    exact h.2.symm
  · rw [not_or] at h1
    obtain ⟨h1o, h1n⟩ := h1
    by_cases h2 : isparent o n = true
    · rw [hB h1o h1n h2] at h
      simp only [Prod.mk.injEq] at h
      exact h.2.symm
    · have h2f : isparent o n = false := by simpa using h2
      by_cases h3 : ancestorsAreDirs fs o = false
      · rw [hC h1o h1n h2f h3] at h
        simp only [Prod.mk.injEq] at h
        exact h.2.symm
      · have h3t : ancestorsAreDirs fs o = true := by simpa using h3
        have hg : renameGuardsOk fs o n := ⟨h1o, h1n, h2f, h3t⟩
        rcases hto : fs.typeOf o with _ | e0
        · rw [hNone hg hto] at h
          simp only [Prod.mk.injEq] at h
          exact h.2.symm
        · cases e0 with
          | dir =>
            by_cases hex : fs.exists_ n = true
            · rcases htn : fs.typeOf n with _ | en
              · rw [FS.exists_, htn] at hex
                cases hex
              · cases en with
                | dir =>
                  by_cases hch : fs.hasChildren n = true
                  · rw [hD2a hg hto htn hch] at h
                    simp only [Prod.mk.injEq] at h
                    exact h.2.symm
                  · have hchf : fs.hasChildren n = false := by simpa using hch
                    rw [hD2b hg hto htn hchf] at h
                    simp at h
                | file c0 =>
                  rw [hFileN c0 hg hto htn] at h
                  simp only [Prod.mk.injEq] at h
                  exact h.2.symm
            · have hexf : fs.exists_ n = false := by simpa using hex
              by_cases hpd : fs.isdir n.dropLast = false
              · rw [hD1a hg hto hexf hpd] at h
                simp only [Prod.mk.injEq] at h
                exact h.2.symm
              · have hpdt : fs.isdir n.dropLast = true := by simpa using hpd
                rw [hD1b hg hto hexf hpdt] at h
                simp at h
          | file c0 =>
            by_cases hnd : fs.isdir n = true
            · rw [hE1 c0 hg hto hnd] at h
              simp only [Prod.mk.injEq] at h
              exact h.2.symm
            · have hndf : fs.isdir n = false := by simpa using hnd
              rw [hE2 c0 hg hto hndf] at h
              simp at h

/-- Witness for C1 on the concrete store {a: dir, a/x: file, b: dir,
b/y: file}: renaming directory `/a` over the non-empty directory `/b`
fails ENOTEMPTY with the store unchanged. -/
theorem C1_rename_steps_witness :
    renameOp fsAB ["a"] ["b"] = (Res.err (some ENOTEMPTY), fsAB) :=
  ((C1_rename_steps fsAB ["a"] ["b"] ["a"] ["b"] (by decide) rfl rfl).2.2.2.2.1
    (by decide) rfl rfl).1 rfl
